import Mathlib

/-!
Verification development for the community package-tracking application
(Express-style server over a spreadsheet backend).  The spreadsheet is
modelled as a list of rows of cell strings; clock readings and random
draws enter the handlers as explicit oracle parameters.  Each route
handler of the source is embedded as a pure Lean function from the sheet
state and the request data to the HTTP outcome and the new sheet state.
-/

namespace LineParcel

/-- Decimal digit character for a value below ten, as produced by the
JavaScript number-to-string conversion used throughout the server. -/
def digitChar (n : Nat) : Char :=
  if n = 0 then '0' else if n = 1 then '1' else if n = 2 then '2'
  else if n = 3 then '3' else if n = 4 then '4' else if n = 5 then '5'
  else if n = 6 then '6' else if n = 7 then '7' else if n = 8 then '8' else '9'

/-- Fuel-indexed most-significant-first decimal digit list of a natural
number; any fuel above the number itself is enough. -/
def natDigitsF : Nat → Nat → List Char
  | 0, _ => []
  | fuel + 1, n =>
    if n < 10 then [digitChar n]
    else natDigitsF fuel (n / 10) ++ [digitChar (n % 10)]

/-- Decimal rendering of a nonnegative integer, modelling the JavaScript
conversion of a number to a string inside a template literal. -/
def natToString (n : Nat) : String :=
  String.mk (natDigitsF (n + 1) n)

/-- Whether the character is one of the ten decimal digits. -/
def isDigitChar (c : Char) : Bool :=
  decide (48 ≤ c.toNat) && decide (c.toNat ≤ 57)

/-- Whitespace as skipped by the JavaScript parseInt. -/
def isSpaceChar (c : Char) : Bool :=
  c == ' ' || c == '\t' || c == '\n' || c == '\r'

/-- Left fold computing the value of a list of decimal digit characters. -/
def digitsValAux : Nat → List Char → Nat
  | acc, [] => acc
  | acc, c :: cs => digitsValAux (acc * 10 + (c.toNat - 48)) cs

/-- Numeric value of the leading run of decimal digits; none when there is
no leading digit, mirroring the NaN result of the JavaScript parseInt. -/
def parseDigits (cs : List Char) : Option Nat :=
  let ds := cs.takeWhile isDigitChar
  if ds.isEmpty then none else some (digitsValAux 0 ds)

/-- Model of the JavaScript parseInt applied to a string in base ten:
skip leading whitespace, read an optional sign, then the digit run. -/
def jsParseInt (s : String) : Option Int :=
  match s.data.dropWhile isSpaceChar with
  | [] => none
  | c :: rest =>
    if c = '-' then (parseDigits rest).map (fun n => -(n : Int))
    else if c = '+' then (parseDigits rest).map (fun n => (n : Int))
    else (parseDigits (c :: rest)).map (fun n => (n : Int))

/-- Split a character list at every colon, keeping empty segments, exactly
as the JavaScript String.prototype.split with separator ":". -/
def splitColonAux : List Char → List (List Char)
  | [] => [[]]
  | c :: cs =>
    if c = ':' then [] :: splitColonAux cs
    else
      match splitColonAux cs with
      | [] => [[c]]
      | g :: gs => (c :: g) :: gs

/-- The JavaScript split(":") on a string. -/
def jsSplitColon (s : String) : List String :=
  (splitColonAux s.data).map String.mk

/-- Whether the list contains a colon, modelling includes(":"). -/
def hasColon : List Char → Bool
  | [] => false
  | c :: cs => c = ':' || hasColon cs

/-- Whether the first list is a leading segment of the second, modelling
the JavaScript String.prototype.startsWith. -/
def startsWithChars : List Char → List Char → Bool
  | [], _ => true
  | _ :: _, [] => false
  | p :: ps, q :: qs => p = q && startsWithChars ps qs

/-- A spreadsheet row: the list of its cell texts from column A on. -/
abbrev Row := List String

/-- A sheet tab: its rows from row 1 on. -/
abbrev Sheet := List Row

/-- The text of a cell, where a missing cell reads as the empty string,
matching the spreadsheet semantics and the JavaScript fallbacks in use. -/
def readCell (r : Row) (i : Nat) : String :=
  (r.get? i).getD ""

/-- Write one cell of a row, padding with empty cells when the row is
shorter, as a ranged spreadsheet update does. -/
def setCell : Row → Nat → String → Row
  | [], 0, v => [v]
  | [], i + 1, v => "" :: setCell [] i v
  | _ :: t, 0, v => v :: t
  | c :: t, i + 1, v => c :: setCell t i v

/-- Index of the first row whose column A equals the given id, modelling
rows.findIndex(r => r[0] === id). -/
def findRow : Sheet → String → Option Nat
  | [], _ => none
  | r :: rs, pid =>
    if r.get? 0 = some pid then some 0
    else (findRow rs pid).map (· + 1)

/-- The observable HTTP outcome of a route handler: its status code and,
on failure, the error message string of the JSON body. -/
structure ApiResp where
  status : Nat
  error : Option String
deriving DecidableEq, Repr

/-- One of the characters 3-9: the first floor alternative [3-9] of the
household-id regex. -/
def isFloor39 (c : Char) : Bool :=
  c == '3' || c == '4' || c == '5' || c == '6' || c == '7' || c == '8' || c == '9'

/-- One of the characters 0-9: the second floor character of the 1[0-9]
alternative of the household-id regex. -/
def isFloor09 (c : Char) : Bool :=
  c == '0' || c == '1' || c == '2' || c == '3' || c == '4' ||
  c == '5' || c == '6' || c == '7' || c == '8' || c == '9'

/-- Wing and door classes ([AC][1-3]|B[1-4]) of the household-id regex. -/
def wingDoorOk (w d : Char) : Bool :=
  ((w == 'A' || w == 'C') && (d == '1' || d == '2' || d == '3')) ||
  (w == 'B' && (d == '1' || d == '2' || d == '3' || d == '4'))

/-- Model of validateHouseholdId from src/server.js: a falsy id is
rejected, and otherwise the id must match the anchored regex
([3-9]|1[0-9])([AC][1-3]|B[1-4]) in full. -/
def validateHouseholdId (s : String) : Bool :=
  match s.data with
  | [f, w, d] => isFloor39 f && wingDoorOk w d
  | [f1, f2, w, d] => f1 == '1' && isFloor09 f2 && wingDoorOk w d
  | _ => false

/-- The household-id language in the words of the specification: a floor
number 3 through 19 written in decimal without a leading zero, then wing A
or C with a door digit 1-3, or wing B with a door digit 1-4. -/
def specHouseholdId (s : String) : Prop :=
  ∃ n : Nat, ∃ w d : Char,
    3 ≤ n ∧ n ≤ 19 ∧ s = natToString n ++ String.mk [w, d] ∧
    (((w = 'A' ∨ w = 'C') ∧ (d = '1' ∨ d = '2' ∨ d = '3')) ∨
      (w = 'B' ∧ (d = '1' ∨ d = '2' ∨ d = '3' ∨ d = '4')))

/-- Model of the POST /api/packages handler of src/server.js: reject an
invalid household id, reject a barcode that already occurs on a row whose
status is Pending (columns B and D of the fetched range), and otherwise
append the new Pending row.  The clock enters as the millisecond reading
pidNow used for the package id and as its ISO rendering nowIso. -/
def addPackageApi (sheet : Sheet) (householdId barcode : String)
    (recipientName : Option String) (pidNow : Nat) (nowIso : String) :
    ApiResp × Sheet :=
  if !validateHouseholdId householdId then
    (⟨400, some "戶號格式錯誤。請確認：樓層3-19、棟別A/B/C、門牌1-4。"⟩, sheet)
  else if sheet.any (fun r =>
      decide (r.get? 1 = some barcode) && decide (r.get? 3 = some "Pending")) then
    (⟨400, some "此條碼已存在且尚未被領取，無法重複登錄。"⟩, sheet)
  else
    (⟨200, none⟩,
      sheet ++ [["PKG" ++ natToString pidNow, barcode, householdId, "Pending",
        nowIso, "", "", "", "FALSE", recipientName.getD ""]])

/-- One record of the GET /api/packages response, built from a sheet row. -/
structure PackageRec where
  packageId : String
  barcode : String
  householdId : String
  status : String
  receivedTime : String
  pickupTime : String
  pickupOTP : String
  signatureDataURL : String
  isOverdueNotified : Bool
  recipientName : String
deriving DecidableEq, Repr

/-- Mapping of one data row to its API record in GET /api/packages of
src/server.js: the pickupOTP field keeps only the part of column G before
the first colon, and the overdue flag compares column I with TRUE. -/
def toPackageRec (r : Row) : PackageRec :=
  { packageId := readCell r 0
    barcode := readCell r 1
    householdId := readCell r 2
    status := readCell r 3
    receivedTime := readCell r 4
    pickupTime := readCell r 5
    pickupOTP :=
      if readCell r 6 = "" then "" else ((jsSplitColon (readCell r 6)).get? 0).getD ""
    signatureDataURL := readCell r 7
    isOverdueNotified := decide (r.get? 8 = some "TRUE")
    recipientName := readCell r 9 }

/-- Model of GET /api/packages of src/server.js: answer the empty list on
an empty grid, and otherwise drop the header row, map every data row to
its record, and reverse so the most recently appended row comes first. -/
def getPackagesApi (sheet : Sheet) : List PackageRec :=
  if sheet.isEmpty then []
  else ((sheet.drop 1).map toPackageRec).reverse

/-- The six-digit code drawn by the per-package OTP issue handler, the
random draw being modelled by the oracle value k:
Math.floor(100000 + Math.random() * 900000). -/
def otpCandidate6 (k : Nat) : String :=
  natToString (100000 + k % 900000)

/-- Fixed validity window of an issued per-package code: five minutes in
milliseconds. -/
def otpWindowMs : Nat := 5 * 60 * 1000

/-- Model of the POST /api/packages/:id/otp handler that stores the code
in the package row (src/types.ts): find the row by package id and write
the single colon-delimited string code:expiry into its column G, the
expiry being the issue time plus the fixed window.  The chat push message
has no spreadsheet effect and is not modelled; a completely empty grid
makes the handler throw, answered as 500. -/
def issueOtpApi (sheet : Sheet) (packageId : String) (k : Nat) (now : Nat) :
    ApiResp × Sheet :=
  if sheet.isEmpty then (⟨500, some "Failed to generate/send OTP"⟩, sheet)
  else
    match findRow sheet packageId with
    | none => (⟨404, some "Package not found"⟩, sheet)
    | some i =>
      let row := (sheet.get? i).getD []
      let stored := otpCandidate6 k ++ ":" ++ natToString (now + otpWindowMs)
      (⟨200, none⟩, sheet.set i (setCell row 6 stored))

/-- The JavaScript comparison now > expiry where expiry came from
parseInt: a comparison against NaN is false. -/
def nowPastExpiry (now : Nat) (expiry : Option Int) : Bool :=
  match expiry with
  | some e => decide ((now : Int) > e)
  | none => false

/-- Model of the POST /api/packages/:id/pickup handler that verifies the
code stored in the package row (src/types.ts): 404 when the row is
missing, 400 when column G holds no colon, when the submitted code
differs from the stored one, or when the stored expiry lies in the past;
on success a batch update writes status, pickup time, cleared code and
signature into columns D, F, G, H of that row.  A completely empty grid
makes the handler throw, answered as 500. -/
def pickupApi (sheet : Sheet) (packageId inputOtp signatureDataURL : String)
    (now : Nat) (nowIso : String) : ApiResp × Sheet :=
  if sheet.isEmpty then (⟨500, some "Pickup failed"⟩, sheet)
  else
    match findRow sheet packageId with
    | none => (⟨404, some "Package not found"⟩, sheet)
    | some i =>
      let row := (sheet.get? i).getD []
      let storedData := readCell row 6
      if !hasColon storedData.data then
        (⟨400, some "OTP invalid or not generated"⟩, sheet)
      else
        let validOtp := ((jsSplitColon storedData).get? 0).getD ""
        let expiryStr := ((jsSplitColon storedData).get? 1).getD ""
        if inputOtp ≠ validOtp then (⟨400, some "驗證碼錯誤"⟩, sheet)
        else if nowPastExpiry now (jsParseInt expiryStr) then
          (⟨400, some "驗證碼已過期，請重新發送"⟩, sheet)
        else
          (⟨200, none⟩, sheet.set i
            (setCell (setCell (setCell (setCell row 3 "Picked Up") 5 nowIso) 6 "")
              7 signatureDataURL))

/-- Model of POST /api/login of src/server.js: a missing or empty
credential gives 400; otherwise success exactly when some row of the
admin tab matches the username in its first column and the password in
its second. -/
def loginApi (adminRows : Sheet) (username password : Option String) : ApiResp :=
  if username.getD "" = "" ∨ password.getD "" = "" then
    ⟨400, some "Missing credentials"⟩
  else if adminRows.any (fun r =>
      decide (r.get? 0 = username) && decide (r.get? 1 = password)) then
    ⟨200, none⟩
  else ⟨401, some "帳號或密碼錯誤"⟩

/-- First-occurrence deduplication with an accumulator of already seen
values, modelling the iteration order of a JavaScript Set. -/
def dedupFirstAux : List String → List String → List String
  | [], _ => []
  | x :: xs, seen =>
    if x ∈ seen then dedupFirstAux xs seen else x :: dedupFirstAux xs (x :: seen)

/-- Spread of a JavaScript Set built from a list: first occurrences kept
in order. -/
def dedupFirst (l : List String) : List String :=
  dedupFirstAux l []

/-- Truthiness of an optional string: null, undefined and the empty
string are falsy. -/
def truthyStr (o : Option String) : Bool :=
  decide (o.getD "" ≠ "")

/-- Model of getLineUsersByHousehold of src/server.js: the ok flag stands
for the credential and fetch steps succeeding, with the empty list
answered on any failure.  A row is kept when its column B equals the
household id and, when a truthy recipient name is supplied, its column C
equals that name; the column-A chat ids of the kept rows are then
deduplicated as by a JavaScript Set. -/
def getLineUsersByHousehold (ok : Bool) (users : Sheet) (householdId : String)
    (recipientName : Option String) : List String :=
  if !ok then []
  else if users.isEmpty then []
  else
    dedupFirst ((users.filter (fun r =>
      decide (r.get? 1 = some householdId) &&
      (if truthyStr recipientName then decide (r.get? 2 = recipientName) else true))).map
      (fun r => readCell r 0))

/-- The four-digit candidate of one draw of generateUniqueOTP, the random
draw being modelled by the oracle value k:
Math.floor(1000 + Math.random() * 9000). -/
def otpCandidate4 (k : Nat) : String :=
  natToString (1000 + k % 9000)

/-- Whether a candidate code prefix-collides with a stored entry: the
entry is truthy and starts with the candidate followed by a colon. -/
def otpCollides (existing : List String) (otp : String) : Bool :=
  existing.any (fun entry =>
    decide (entry ≠ "") && startsWithChars (otp.data ++ [':']) entry.data)

/-- Loop of generateUniqueOTP: attempt counts the draws made so far and
fuel the redraws still permitted; the loop stops at the first candidate
without a collision and otherwise returns the last draw. -/
def genOtpAux (existing : List String) (draws : Nat → Nat) : Nat → Nat → String
  | attempt, 0 => otpCandidate4 (draws attempt)
  | attempt, fuel + 1 =>
    let otp := otpCandidate4 (draws attempt)
    if otpCollides existing otp then genOtpAux existing draws (attempt + 1) fuel
    else otp

/-- Model of generateUniqueOTP of src/server.js: up to ten candidate
draws, stopping at the first that does not prefix-collide with an
existing entry, and otherwise returning the tenth draw unchecked. -/
def generateUniqueOTP (existing : List String) (draws : Nat → Nat) : String :=
  genOtpAux existing draws 0 9

/-! Lemmas about the decimal rendering and its recovery by parseInt. -/

theorem digitChar_toNat {k : Nat} (hk : k < 10) : (digitChar k).toNat = 48 + k := by
  interval_cases k <;> decide

theorem digitChar_digit {k : Nat} (hk : k < 10) :
    48 ≤ (digitChar k).toNat ∧ (digitChar k).toNat ≤ 57 := by
  rw [digitChar_toNat hk]; omega

theorem natDigitsF_congr :
    ∀ f g n, n < f → n < g → natDigitsF f n = natDigitsF g n := by
  intro f
  induction f with
  | zero => intro g n hf; omega
  | succ f ih =>
    intro g n hf hg
    cases g with
    | zero => omega
    | succ g =>
      simp only [natDigitsF]
      by_cases h : n < 10
      · simp [h]
      · have hdiv : n / 10 < n := Nat.div_lt_self (by omega) (by omega)
        rw [if_neg h, if_neg h, ih g (n / 10) (by omega) (by omega)]

theorem natDigitsF_unfold {f n : Nat} (h : n < f) :
    natDigitsF f n =
      if n < 10 then [digitChar n]
      else natDigitsF f (n / 10) ++ [digitChar (n % 10)] := by
  cases f with
  | zero => omega
  | succ f =>
    show (if n < 10 then [digitChar n]
      else natDigitsF f (n / 10) ++ [digitChar (n % 10)]) = _
    by_cases h10 : n < 10
    · rw [if_pos h10, if_pos h10]
    · have hdiv : n / 10 < n := Nat.div_lt_self (by omega) (by omega)
      rw [if_neg h10, if_neg h10,
        natDigitsF_congr f (f + 1) (n / 10) (by omega) (by omega)]

theorem natDigitsF_digits :
    ∀ f n, n < f → ∀ c ∈ natDigitsF f n, 48 ≤ c.toNat ∧ c.toNat ≤ 57 := by
  intro f
  induction f with
  | zero => intro n hf; omega
  | succ f ih =>
    intro n hf c hc
    simp only [natDigitsF] at hc
    by_cases h : n < 10
    · rw [if_pos h] at hc
      simp only [List.mem_singleton] at hc
      exact hc ▸ digitChar_digit h
    · rw [if_neg h] at hc
      have hdiv : n / 10 < n := Nat.div_lt_self (by omega) (by omega)
      rcases List.mem_append.mp hc with h1 | h2
      · exact ih (n / 10) (by omega) c h1
      · simp only [List.mem_singleton] at h2
        exact h2 ▸ digitChar_digit (Nat.mod_lt n (by omega))

theorem natDigitsF_ne_nil {f n : Nat} (h : n < f) : natDigitsF f n ≠ [] := by
  rw [natDigitsF_unfold h]
  by_cases h10 : n < 10 <;> simp [h10]

theorem digitsValAux_append (l : List Char) (c : Char) :
    ∀ acc, digitsValAux acc (l ++ [c]) = (digitsValAux acc l) * 10 + (c.toNat - 48) := by
  induction l with
  | nil => intro acc; rfl
  | cons x xs ih =>
    intro acc
    rw [List.cons_append]
    show digitsValAux (acc * 10 + (x.toNat - 48)) (xs ++ [c]) = _
    rw [ih]
    rfl

theorem digitsValAux_natDigitsF :
    ∀ f n, n < f → digitsValAux 0 (natDigitsF f n) = n := by
  intro f
  induction f with
  | zero => intro n hf; omega
  | succ f ih =>
    intro n hf
    rw [natDigitsF_unfold hf]
    by_cases h : n < 10
    · rw [if_pos h]
      have hv : digitsValAux 0 [digitChar n] = 0 * 10 + ((digitChar n).toNat - 48) := rfl
      rw [hv, digitChar_toNat h]
      omega
    · have hdiv : n / 10 < n := Nat.div_lt_self (by omega) (by omega)
      rw [if_neg h, digitsValAux_append,
        natDigitsF_congr (f + 1) f (n / 10) (by omega) (by omega),
        ih (n / 10) (by omega), digitChar_toNat (Nat.mod_lt n (by omega))]
      omega

theorem takeWhile_digits {l : List Char}
    (h : ∀ c ∈ l, 48 ≤ c.toNat ∧ c.toNat ≤ 57) : l.takeWhile isDigitChar = l := by
  induction l with
  | nil => rfl
  | cons x xs ih =>
    have hx := h x (List.mem_cons_self x xs)
    have : isDigitChar x = true := by
      simp [isDigitChar]; omega
    simp only [List.takeWhile_cons, this, if_pos]
    rw [ih fun c hc => h c (List.mem_cons_of_mem x hc)]

theorem parseDigits_of_digits {l : List Char} (hne : l ≠ [])
    (h : ∀ c ∈ l, 48 ≤ c.toNat ∧ c.toNat ≤ 57) :
    parseDigits l = some (digitsValAux 0 l) := by
  simp only [parseDigits, takeWhile_digits h]
  rw [if_neg (by simpa using hne)]

theorem data_natToString (n : Nat) : (natToString n).data = natDigitsF (n + 1) n := rfl

theorem natToString_digits (n : Nat) :
    ∀ c ∈ (natToString n).data, 48 ≤ c.toNat ∧ c.toNat ≤ 57 :=
  natDigitsF_digits (n + 1) n (by omega)

theorem jsParseInt_natToString (n : Nat) :
    jsParseInt (natToString n) = some (n : Int) := by
  have hd := natToString_digits n
  have hne : (natToString n).data ≠ [] := natDigitsF_ne_nil (by omega)
  rcases hl : (natToString n).data with _ | ⟨c, rest⟩
  · exact absurd hl hne
  · have hc := hd c (by rw [hl]; exact List.mem_cons_self c rest)
    have hrest : ∀ x ∈ c :: rest, 48 ≤ x.toNat ∧ x.toNat ≤ 57 := by rw [← hl]; exact hd
    have hspace : isSpaceChar c = false := by
      simp only [isSpaceChar, Bool.or_eq_false_iff, beq_eq_false_iff_ne, ne_eq]
      refine ⟨⟨⟨?_, ?_⟩, ?_⟩, ?_⟩ <;> rintro rfl <;> simp at hc
    have hvc : digitsValAux 0 ((natToString n).data) = n := by
      rw [data_natToString]
      exact digitsValAux_natDigitsF (n + 1) n (by omega)
    simp only [jsParseInt, hl, List.dropWhile_cons, hspace, Bool.false_eq_true, if_false,
      List.dropWhile_nil]
    rw [if_neg (by rintro rfl; simp at hc), if_neg (by rintro rfl; simp at hc),
      parseDigits_of_digits (by simp) hrest]
    rw [hl] at hvc
    simp [hvc]

theorem natToString_length_one {n : Nat} (h : n < 10) :
    (natToString n).data.length = 1 := by
  rw [data_natToString, natDigitsF_unfold (by omega), if_pos h]
  rfl

theorem natToString_length_four {n : Nat} (h1 : 1000 ≤ n) (h2 : n < 10000) :
    (natToString n).length = 4 := by
  have key : ∀ m f, m < f → 10 ≤ m →
      (natDigitsF f m).length = (natDigitsF f (m / 10)).length + 1 := by
    intro m f hf hm
    rw [natDigitsF_unfold hf, if_neg (by omega)]
    simp
  have hd1 : 100 ≤ n / 10 ∧ n / 10 < 1000 := by omega
  have hd2 : 100 ≤ n / 10 → n / 10 / 10 = n / 100 := by
    intro
    rw [Nat.div_div_eq_div_mul]
  have e1 : n / 10 / 10 = n / 100 := by rw [Nat.div_div_eq_div_mul]
  have e2 : n / 100 / 10 = n / 1000 := by rw [Nat.div_div_eq_div_mul]
  have hb : 10 ≤ n / 100 ∧ n / 100 < 100 := by omega
  have hc : 1 ≤ n / 1000 ∧ n / 1000 < 10 := by omega
  have hlen : (natToString n).length = (natToString n).data.length := rfl
  rw [hlen, data_natToString]
  rw [key n (n + 1) (by omega) (by omega)]
  rw [key (n / 10) (n + 1) (by omega) (by omega), e1]
  rw [key (n / 100) (n + 1) (by omega) (by omega), e2]
  rw [natDigitsF_congr (n + 1) (n / 1000 + 1) (n / 1000) (by omega) (by omega),
    natDigitsF_unfold (f := n / 1000 + 1) (by omega), if_pos (by omega)]
  rfl

/-! Lemmas about the colon splitter. -/

theorem splitColonAux_ne_nil : ∀ l, splitColonAux l ≠ [] := by
  intro l
  induction l with
  | nil => simp [splitColonAux]
  | cons c cs ih =>
    simp only [splitColonAux]
    by_cases h : c = ':'
    · simp [h]
    · rw [if_neg h]
      rcases hs : splitColonAux cs with _ | ⟨g, gs⟩
      · exact absurd hs ih
      · simp

theorem splitColonAux_no_colon :
    ∀ l, hasColon l = false → splitColonAux l = [l] := by
  intro l
  induction l with
  | nil => intro _; rfl
  | cons c cs ih =>
    intro h
    simp only [hasColon, Bool.or_eq_false_iff, decide_eq_false_iff_not] at h
    simp only [splitColonAux, if_neg h.1, ih h.2]

theorem splitColonAux_append (l1 l2 : List Char) (h : hasColon l1 = false) :
    splitColonAux (l1 ++ ':' :: l2) = l1 :: splitColonAux l2 := by
  induction l1 with
  | nil => simp [splitColonAux]
  | cons c cs ih =>
    simp only [hasColon, Bool.or_eq_false_iff, decide_eq_false_iff_not] at h
    rw [List.cons_append]
    simp only [splitColonAux, if_neg h.1, ih h.2]

theorem hasColon_of_mem {l : List Char} (hc : ':' ∈ l) : hasColon l = true := by
  induction l with
  | nil => simp at hc
  | cons c cs ih =>
    rcases List.mem_cons.mp hc with h | h
    · simp [hasColon, h.symm]
    · simp [hasColon, ih h]

theorem hasColon_append (l1 l2 : List Char) :
    hasColon (l1 ++ l2) = (hasColon l1 || hasColon l2) := by
  induction l1 with
  | nil => simp [hasColon]
  | cons c cs ih => simp [hasColon, ih, Bool.or_assoc]

theorem hasColon_of_digits {l : List Char}
    (h : ∀ c ∈ l, 48 ≤ c.toNat ∧ c.toNat ≤ 57) : hasColon l = false := by
  induction l with
  | nil => rfl
  | cons c cs ih =>
    have hc := h c (List.mem_cons_self c cs)
    simp only [hasColon, Bool.or_eq_false_iff, decide_eq_false_iff_not]
    refine ⟨?_, ih fun x hx => h x (List.mem_cons_of_mem c hx)⟩
    rintro rfl
    simp at hc

theorem natToString_no_colon (n : Nat) : hasColon (natToString n).data = false :=
  hasColon_of_digits (natToString_digits n)

theorem data_append (s t : String) : (s ++ t).data = s.data ++ t.data := rfl

theorem data_pair (code exp : String) :
    (code ++ ":" ++ exp).data = code.data ++ ':' :: exp.data := by
  rw [data_append, data_append]
  show code.data ++ [':'] ++ exp.data = _
  rw [List.append_assoc]
  rfl

theorem jsSplitColon_pair (code exp : String)
    (h1 : hasColon code.data = false) (h2 : hasColon exp.data = false) :
    jsSplitColon (code ++ ":" ++ exp) = [code, exp] := by
  simp only [jsSplitColon, data_pair, splitColonAux_append code.data exp.data h1,
    splitColonAux_no_colon exp.data h2, List.map_cons, List.map_nil]

theorem hasColon_pair (code exp : String) :
    hasColon (code ++ ":" ++ exp).data = true := by
  rw [data_pair, hasColon_append]
  simp [hasColon]

theorem splitColonAux_parts_no_colon :
    ∀ l, ∀ g ∈ splitColonAux l, hasColon g = false := by
  intro l
  induction l with
  | nil =>
    intro g hg
    simp only [splitColonAux, List.mem_singleton] at hg
    subst hg; rfl
  | cons c cs ih =>
    intro g hg
    simp only [splitColonAux] at hg
    by_cases h : c = ':'
    · rw [if_pos h] at hg
      rcases List.mem_cons.mp hg with h1 | h1
      · subst h1; rfl
      · exact ih g h1
    · rw [if_neg h] at hg
      rcases hs : splitColonAux cs with _ | ⟨p, ps⟩
      · exact absurd hs (splitColonAux_ne_nil cs)
      · rw [hs] at hg
        rcases List.mem_cons.mp hg with h1 | h1
        · subst h1
          have hp : hasColon p = false := ih p (by rw [hs]; exact List.mem_cons_self p ps)
          simp [hasColon, h, hp]
        · exact ih g (by rw [hs]; exact List.mem_cons_of_mem p h1)

/-! Lemmas about cells, rows and row lookup. -/

theorem readCell_setCell_self : ∀ r i v, readCell (setCell r i v) i = v := by
  intro r
  induction r with
  | nil =>
    intro i v
    induction i with
    | zero => rfl
    | succ j ihj => simpa [setCell, readCell, List.get?] using ihj
  | cons c t ih =>
    intro i v
    cases i with
    | zero => rfl
    | succ j => simpa [setCell, readCell, List.get?] using ih j v

theorem readCell_setCell_ne : ∀ r i v j, j ≠ i → readCell (setCell r i v) j = readCell r j := by
  intro r
  induction r with
  | nil =>
    intro i
    induction i with
    | zero =>
      intro v j hj
      cases j with
      | zero => exact absurd rfl hj
      | succ j => rfl
    | succ i ihi =>
      intro v j hj
      cases j with
      | zero => rfl
      | succ j =>
        have := ihi v j (by omega)
        simpa [setCell, readCell, List.get?] using this
  | cons c t ih =>
    intro i v j hj
    cases i with
    | zero =>
      cases j with
      | zero => exact absurd rfl hj
      | succ j => rfl
    | succ i =>
      cases j with
      | zero => rfl
      | succ j =>
        have := ih i v j (by omega)
        simpa [setCell, readCell, List.get?] using this

theorem get?_zero_setCell : ∀ (r : Row) (i : Nat) (v : String), 0 < i → r.get? 0 ≠ none →
    (setCell r i v).get? 0 = r.get? 0 := by
  intro r i v hi hne
  cases r with
  | nil => simp [List.get?] at hne
  | cons c t =>
    cases i with
    | zero => omega
    | succ i => rfl

theorem get?_set_ne {α : Type} : ∀ (l : List α) (i j : Nat) (a : α), j ≠ i →
    (l.set i a).get? j = l.get? j := by
  intro l
  induction l with
  | nil => intro i j a hj; rfl
  | cons x xs ih =>
    intro i j a hj
    cases i with
    | zero =>
      cases j with
      | zero => exact absurd rfl hj
      | succ j => rfl
    | succ i =>
      cases j with
      | zero => rfl
      | succ j => simpa [List.set, List.get?] using ih i j a (by omega)

theorem get?_set_self {α : Type} : ∀ (l : List α) (i : Nat) (a : α), i < l.length →
    (l.set i a).get? i = some a := by
  intro l
  induction l with
  | nil => intro i a hi; simp at hi
  | cons x xs ih =>
    intro i a hi
    cases i with
    | zero => rfl
    | succ i => simpa [List.set, List.get?] using ih i a (by simpa using hi)

theorem findRow_spec : ∀ (s : Sheet) (pid : String) (i : Nat),
    findRow s pid = some i → i < s.length ∧ ∃ r, s.get? i = some r ∧ r.get? 0 = some pid := by
  intro s
  induction s with
  | nil => intro pid i h; simp [findRow] at h
  | cons r rs ih =>
    intro pid i h
    simp only [findRow] at h
    by_cases h0 : r.get? 0 = some pid
    · rw [if_pos h0] at h
      cases h
      exact ⟨by simp, r, rfl, h0⟩
    · rw [if_neg h0] at h
      rcases hf : findRow rs pid with _ | j
      · rw [hf] at h; simp at h
      · rw [hf] at h
        have hji : j + 1 = i := by simpa using h
        subst hji
        obtain ⟨hj, r', hr', hr0⟩ := ih pid j hf
        exact ⟨by simpa using hj, r', by simpa using hr', hr0⟩

theorem findRow_set_same_head : ∀ (s : Sheet) (pid : String) (i : Nat) (r' : Row),
    (∀ r, s.get? i = some r → r'.get? 0 = r.get? 0) →
    findRow (s.set i r') pid = findRow s pid := by
  intro s
  induction s with
  | nil => intro pid i r' hh; rfl
  | cons r rs ih =>
    intro pid i r' hh
    cases i with
    | zero =>
      have h0 : r'.get? 0 = r.get? 0 := hh r rfl
      simp only [List.set, findRow, h0]
    | succ i =>
      simp only [List.set, findRow]
      rw [ih pid i r' (fun x hx => hh x (by simpa [List.get?] using hx))]

theorem findRow_ne_nil {s : Sheet} {pid : String} {i : Nat}
    (h : findRow s pid = some i) : s.isEmpty = false := by
  cases s with
  | nil => simp [findRow] at h
  | cons r rs => rfl

/-! Lemmas about the Set-style deduplication. -/

theorem dedupFirstAux_mem :
    ∀ (l seen : List String) (x : String),
      x ∈ dedupFirstAux l seen ↔ x ∈ l ∧ x ∉ seen := by
  intro l
  induction l with
  | nil => intro seen x; simp [dedupFirstAux]
  | cons y ys ih =>
    intro seen x
    simp only [dedupFirstAux]
    by_cases hy : y ∈ seen
    · rw [if_pos hy, ih]
      constructor
      · rintro ⟨h1, h2⟩
        exact ⟨List.mem_cons_of_mem y h1, h2⟩
      · rintro ⟨h1, h2⟩
        rcases List.mem_cons.mp h1 with rfl | h1
        · exact absurd hy h2
        · exact ⟨h1, h2⟩
    · rw [if_neg hy]
      constructor
      · intro h
        rcases List.mem_cons.mp h with rfl | h
        · exact ⟨List.mem_cons_self x ys, hy⟩
        · obtain ⟨h1, h2⟩ := (ih (y :: seen) x).mp h
          exact ⟨List.mem_cons_of_mem y h1,
            fun hx => h2 (List.mem_cons_of_mem y hx)⟩
      · rintro ⟨h1, h2⟩
        by_cases hxy : x = y
        · subst hxy; exact List.mem_cons_self x _
        · rcases List.mem_cons.mp h1 with rfl | h1
          · exact absurd rfl hxy
          · exact List.mem_cons_of_mem y
              ((ih (y :: seen) x).mpr ⟨h1, by simp [hxy, h2]⟩)

theorem dedupFirstAux_nodup :
    ∀ (l seen : List String), (dedupFirstAux l seen).Nodup := by
  intro l
  induction l with
  | nil => intro seen; simp [dedupFirstAux]
  | cons y ys ih =>
    intro seen
    simp only [dedupFirstAux]
    by_cases hy : y ∈ seen
    · rw [if_pos hy]; exact ih seen
    · rw [if_neg hy]
      refine List.nodup_cons.mpr ⟨?_, ih (y :: seen)⟩
      intro hmem
      exact ((dedupFirstAux_mem ys (y :: seen) y).mp hmem).2 (List.mem_cons_self y seen)

theorem dedupFirst_mem (l : List String) (x : String) : x ∈ dedupFirst l ↔ x ∈ l := by
  have h := dedupFirstAux_mem l [] x
  simpa [dedupFirst] using h

theorem dedupFirst_nodup (l : List String) : (dedupFirst l).Nodup :=
  dedupFirstAux_nodup l []

/-! Helper lemmas for the household-id regex. -/

theorem validate_three (f w d : Char) :
    validateHouseholdId (String.mk [f, w, d]) = (isFloor39 f && wingDoorOk w d) := rfl

theorem validate_four (f1 f2 w d : Char) :
    validateHouseholdId (String.mk [f1, f2, w, d]) =
      (f1 == '1' && isFloor09 f2 && wingDoorOk w d) := rfl

theorem wingDoorOk_iff (w d : Char) :
    wingDoorOk w d = true ↔
      (((w = 'A' ∨ w = 'C') ∧ (d = '1' ∨ d = '2' ∨ d = '3')) ∨
        (w = 'B' ∧ (d = '1' ∨ d = '2' ∨ d = '3' ∨ d = '4'))) := by
  simp only [wingDoorOk, Bool.or_eq_true, Bool.and_eq_true, beq_iff_eq]
  tauto

/-- C3: validateHouseholdId accepts exactly the strings made of a floor
number 3 through 19 written without a leading zero, followed by wing A or
C with a door digit 1-3, or wing B with a door digit 1-4; and every
check-in request whose householdId is not accepted is answered with HTTP
400 and an error message while the Packages sheet stays unchanged. -/
theorem householdId_regex_spec :
    (∀ s : String, validateHouseholdId s = true ↔ specHouseholdId s) ∧
    (∀ (sheet : Sheet) (hid barcode : String) (rn : Option String)
        (pidNow : Nat) (nowIso : String),
      validateHouseholdId hid = false →
      addPackageApi sheet hid barcode rn pidNow nowIso =
        (⟨400, some "戶號格式錯誤。請確認：樓層3-19、棟別A/B/C、門牌1-4。"⟩, sheet)) := by
  constructor
  · intro s
    constructor
    · intro hv
      obtain ⟨l⟩ := s
      rcases l with _ | ⟨c1, _ | ⟨c2, _ | ⟨c3, _ | ⟨c4, _ | ⟨c5, rest⟩⟩⟩⟩⟩
      · exact Bool.noConfusion hv
      · exact Bool.noConfusion hv
      · exact Bool.noConfusion hv
      · rw [validate_three] at hv
        simp only [Bool.and_eq_true] at hv
        obtain ⟨h1, h2⟩ := hv
        have hw := (wingDoorOk_iff c2 c3).mp h2
        simp only [isFloor39, Bool.or_eq_true, beq_iff_eq] at h1
        rcases h1 with (((((rfl | rfl) | rfl) | rfl) | rfl) | rfl) | rfl
        · exact ⟨3, c2, c3, by omega, by omega, rfl, hw⟩
        · exact ⟨4, c2, c3, by omega, by omega, rfl, hw⟩
        · exact ⟨5, c2, c3, by omega, by omega, rfl, hw⟩
        · exact ⟨6, c2, c3, by omega, by omega, rfl, hw⟩
        · exact ⟨7, c2, c3, by omega, by omega, rfl, hw⟩
        · exact ⟨8, c2, c3, by omega, by omega, rfl, hw⟩
        · exact ⟨9, c2, c3, by omega, by omega, rfl, hw⟩
      · rw [validate_four] at hv
        simp only [Bool.and_eq_true, beq_iff_eq] at hv
        obtain ⟨⟨rfl, h2⟩, h3⟩ := hv
        have hw := (wingDoorOk_iff c3 c4).mp h3
        simp only [isFloor09, Bool.or_eq_true, beq_iff_eq] at h2
        rcases h2 with ((((((((rfl | rfl) | rfl) | rfl) | rfl) | rfl) | rfl) | rfl) | rfl) | rfl
        · exact ⟨10, c3, c4, by omega, by omega, rfl, hw⟩
        · exact ⟨11, c3, c4, by omega, by omega, rfl, hw⟩
        · exact ⟨12, c3, c4, by omega, by omega, rfl, hw⟩
        · exact ⟨13, c3, c4, by omega, by omega, rfl, hw⟩
        · exact ⟨14, c3, c4, by omega, by omega, rfl, hw⟩
        · exact ⟨15, c3, c4, by omega, by omega, rfl, hw⟩
        · exact ⟨16, c3, c4, by omega, by omega, rfl, hw⟩
        · exact ⟨17, c3, c4, by omega, by omega, rfl, hw⟩
        · exact ⟨18, c3, c4, by omega, by omega, rfl, hw⟩
        · exact ⟨19, c3, c4, by omega, by omega, rfl, hw⟩
      · exact Bool.noConfusion hv
    · rintro ⟨n, w, d, h3, h19, rfl, hw⟩
      have hwd : wingDoorOk w d = true := (wingDoorOk_iff w d).mpr hw
      interval_cases n <;> exact hwd
  · intro sheet hid barcode rn pidNow nowIso hv
    simp [addPackageApi, hv]

theorem householdId_regex_spec_witness :
    validateHouseholdId "11A1" = true ∧
    (addPackageApi [] "99Z9" "BC123" none 0 "t").2 = [] := by
  constructor
  · exact (householdId_regex_spec.1 "11A1").mpr
      ⟨11, 'A', '1', by omega, by omega, rfl, by simp⟩
  · rw [householdId_regex_spec.2 [] "99Z9" "BC123" none 0 "t" (by decide)]

/-! Evaluation of the per-package pickup handler on a row whose code cell
holds a well-formed code-and-expiry pair. -/

theorem pickupApi_eval (sheet : Sheet) (pid inputOtp sig nowIso code : String)
    (now e : Nat) (i : Nat) (row : Row)
    (hfind : findRow sheet pid = some i)
    (hrow : sheet.get? i = some row)
    (hcell : readCell row 6 = code ++ ":" ++ natToString e)
    (hcode : hasColon code.data = false) :
    pickupApi sheet pid inputOtp sig now nowIso =
      if inputOtp ≠ code then (⟨400, some "驗證碼錯誤"⟩, sheet)
      else if e < now then (⟨400, some "驗證碼已過期，請重新發送"⟩, sheet)
      else (⟨200, none⟩, sheet.set i
        (setCell (setCell (setCell (setCell row 3 "Picked Up") 5 nowIso) 6 "")
          7 sig)) := by
  have hne : sheet.isEmpty = false := findRow_ne_nil hfind
  have hsplit := jsSplitColon_pair code (natToString e) hcode (natToString_no_colon e)
  have hpair := hasColon_pair code (natToString e)
  simp only [pickupApi, hne, Bool.false_eq_true, if_false, hfind, hrow,
    Option.getD_some, hcell, hpair, Bool.not_true, hsplit, List.get?,
    Option.getD_some, jsParseInt_natToString, nowPastExpiry, gt_iff_lt,
    decide_eq_true_eq]
  by_cases h1 : inputOtp ≠ code
  · simp [h1]
  · by_cases h2 : e < now
    · have h2' : (e : Int) < (now : Int) := by exact_mod_cast h2
      simp [h1, h2, h2']
    · have h2' : ¬((e : Int) < (now : Int)) := by exact_mod_cast h2
      simp [h1, h2, h2']

/-- C1: for a pickup request on a package id present in the Packages sheet
whose stored code cell holds a code-and-expiry pair, the pickup succeeds
with the row's status cell becoming Picked Up exactly when the submitted
code equals the stored code and the request time is not past the stored
expiry; a wrong code and an expired code each get HTTP 400 with a message
while every cell of the sheet stays unchanged. -/
theorem pickup_code_check (sheet : Sheet) (pid inputOtp sig nowIso code : String)
    (now e i : Nat) (row : Row)
    (hfind : findRow sheet pid = some i)
    (hrow : sheet.get? i = some row)
    (hcell : readCell row 6 = code ++ ":" ++ natToString e)
    (hcode : hasColon code.data = false) :
    (((pickupApi sheet pid inputOtp sig now nowIso).1.status = 200 ∧
        readCell (((pickupApi sheet pid inputOtp sig now nowIso).2.get? i).getD []) 3 =
          "Picked Up") ↔
      (inputOtp = code ∧ now ≤ e)) ∧
    (¬(inputOtp = code ∧ now ≤ e) →
      (pickupApi sheet pid inputOtp sig now nowIso).1.status = 400 ∧
      ((pickupApi sheet pid inputOtp sig now nowIso).1.error).isSome = true ∧
      (pickupApi sheet pid inputOtp sig now nowIso).2 = sheet) := by
  obtain ⟨hlen, -⟩ := findRow_spec sheet pid i hfind
  rw [pickupApi_eval sheet pid inputOtp sig nowIso code now e i row hfind hrow hcell hcode]
  by_cases h1 : inputOtp = code
  · subst h1
    by_cases h2 : now ≤ e
    · have hlt : ¬ (e < now) := by omega
      rw [if_neg (by simp), if_neg hlt]
      constructor
      · constructor
        · intro _; exact ⟨rfl, h2⟩
        · intro _
          refine ⟨rfl, ?_⟩
          rw [get?_set_self sheet i _ hlen]
          simp only [Option.getD_some]
          rw [readCell_setCell_ne _ _ _ _ (by omega),
            readCell_setCell_ne _ _ _ _ (by omega),
            readCell_setCell_ne _ _ _ _ (by omega),
            readCell_setCell_self]
      · intro h; exact absurd ⟨rfl, h2⟩ h
    · have hlt : e < now := by omega
      rw [if_neg (by simp), if_pos hlt]
      constructor
      · constructor
        · rintro ⟨h200, -⟩; simp at h200
        · rintro ⟨-, hc⟩; omega
      · intro _; exact ⟨rfl, rfl, rfl⟩
  · rw [if_pos h1]
    constructor
    · constructor
      · rintro ⟨h200, -⟩; simp at h200
      · rintro ⟨hc, -⟩; exact absurd hc h1
    · intro _; exact ⟨rfl, rfl, rfl⟩

theorem pickup_code_check_witness :
    ((pickupApi
        [["PKG1", "b", "11A1", "Pending", "t0", "", "123456" ++ ":" ++ natToString 99, "", "FALSE"]]
        "PKG1" "123456" "sig" 50 "t1").1.status = 200) ∧
    ((pickupApi
        [["PKG1", "b", "11A1", "Pending", "t0", "", "123456" ++ ":" ++ natToString 99, "", "FALSE"]]
        "PKG1" "999999" "sig" 50 "t1").2 =
      [["PKG1", "b", "11A1", "Pending", "t0", "", "123456" ++ ":" ++ natToString 99, "", "FALSE"]]) := by
  constructor
  · have h := pickup_code_check
      [["PKG1", "b", "11A1", "Pending", "t0", "", "123456" ++ ":" ++ natToString 99, "", "FALSE"]]
      "PKG1" "123456" "sig" "t1" "123456" 50 99 0
      ["PKG1", "b", "11A1", "Pending", "t0", "", "123456" ++ ":" ++ natToString 99, "", "FALSE"]
      (by decide) rfl rfl (by decide)
    exact ((h.1).mpr ⟨rfl, by omega⟩).1
  · have h := pickup_code_check
      [["PKG1", "b", "11A1", "Pending", "t0", "", "123456" ++ ":" ++ natToString 99, "", "FALSE"]]
      "PKG1" "999999" "sig" "t1" "123456" 50 99 0
      ["PKG1", "b", "11A1", "Pending", "t0", "", "123456" ++ ":" ++ natToString 99, "", "FALSE"]
      (by decide) rfl rfl (by decide)
    exact (h.2 (by intro hx; exact absurd hx.1 (by decide))).2.2

/-- Evaluation of the per-package pickup handler when its answer is a
success: the result is exactly the four-cell update of the found row. -/
theorem pickupApi_success_eq (sheet : Sheet) (pid inputOtp sig nowIso : String)
    (now i : Nat) (row : Row)
    (hfind : findRow sheet pid = some i)
    (hrow : sheet.get? i = some row)
    (hsucc : (pickupApi sheet pid inputOtp sig now nowIso).1.status = 200) :
    pickupApi sheet pid inputOtp sig now nowIso =
      (⟨200, none⟩, sheet.set i
        (setCell (setCell (setCell (setCell row 3 "Picked Up") 5 nowIso) 6 "")
          7 sig)) := by
  have hne : sheet.isEmpty = false := findRow_ne_nil hfind
  simp only [pickupApi, hne, Bool.false_eq_true, if_false, hfind, hrow,
    Option.getD_some] at hsucc ⊢
  split_ifs at hsucc ⊢ <;> first | rfl | simp at hsucc

/-- C7: a successful single-package pickup is a single-row update: it
writes only the status, pickup-time, code and signature cells (columns D,
F, G, H) of the first row whose package id matches the request, and every
other row of the sheet and every other column of that row keep their
values. -/
theorem pickup_single_row_update (sheet : Sheet) (pid inputOtp sig nowIso : String)
    (now i : Nat) (row : Row)
    (hfind : findRow sheet pid = some i)
    (hrow : sheet.get? i = some row)
    (hsucc : (pickupApi sheet pid inputOtp sig now nowIso).1.status = 200) :
    (pickupApi sheet pid inputOtp sig now nowIso).2.length = sheet.length ∧
    (∀ j, j ≠ i → (pickupApi sheet pid inputOtp sig now nowIso).2.get? j = sheet.get? j) ∧
    ∃ row', (pickupApi sheet pid inputOtp sig now nowIso).2.get? i = some row' ∧
      readCell row' 3 = "Picked Up" ∧ readCell row' 5 = nowIso ∧
      readCell row' 6 = "" ∧ readCell row' 7 = sig ∧
      (∀ c, c ≠ 3 → c ≠ 5 → c ≠ 6 → c ≠ 7 → readCell row' c = readCell row c) := by
  obtain ⟨hlen, -⟩ := findRow_spec sheet pid i hfind
  rw [pickupApi_success_eq sheet pid inputOtp sig nowIso now i row hfind hrow hsucc]
  refine ⟨by simp, fun j hj => get?_set_ne sheet i j _ hj, _, get?_set_self sheet i _ hlen,
    ?_, ?_, ?_, ?_, ?_⟩
  · rw [readCell_setCell_ne _ _ _ _ (by omega), readCell_setCell_ne _ _ _ _ (by omega),
      readCell_setCell_ne _ _ _ _ (by omega), readCell_setCell_self]
  · rw [readCell_setCell_ne _ _ _ _ (by omega), readCell_setCell_ne _ _ _ _ (by omega),
      readCell_setCell_self]
  · rw [readCell_setCell_ne _ _ _ _ (by omega), readCell_setCell_self]
  · rw [readCell_setCell_self]
  · intro c h3 h5 h6 h7
    rw [readCell_setCell_ne _ _ _ _ h7, readCell_setCell_ne _ _ _ _ h6,
      readCell_setCell_ne _ _ _ _ h5, readCell_setCell_ne _ _ _ _ h3]

theorem pickup_single_row_update_witness :
    readCell (((pickupApi
        [["hdr"], ["PKG9", "b", "3A1", "Pending", "t0", "", "1" ++ ":" ++ natToString 5, "", "FALSE"]]
        "PKG9" "1" "s" 4 "t1").2.get? 1).getD []) 3 = "Picked Up" ∧
    (pickupApi
        [["hdr"], ["PKG9", "b", "3A1", "Pending", "t0", "", "1" ++ ":" ++ natToString 5, "", "FALSE"]]
        "PKG9" "1" "s" 4 "t1").2.get? 0 = some ["hdr"] := by
  have h := pickup_single_row_update
    [["hdr"], ["PKG9", "b", "3A1", "Pending", "t0", "", "1" ++ ":" ++ natToString 5, "", "FALSE"]]
    "PKG9" "1" "s" "t1" 4 1
    ["PKG9", "b", "3A1", "Pending", "t0", "", "1" ++ ":" ++ natToString 5, "", "FALSE"]
    (by decide) rfl (by decide)
  obtain ⟨-, hframe, row', hr, hd, -⟩ := h
  constructor
  · rw [hr]
    exact hd
  · rw [hframe 0 (by omega)]
    rfl

/-- C2: the verification code is one-time for its package: a successful
pickup clears the stored code cell of the row, so every further pickup
request for that package, in particular one submitting the same code, is
answered 400 and changes nothing. -/
theorem pickup_code_one_time (sheet : Sheet) (pid code sig nowIso : String)
    (now i : Nat)
    (hfind : findRow sheet pid = some i)
    (hsucc : (pickupApi sheet pid code sig now nowIso).1.status = 200) :
    readCell ((((pickupApi sheet pid code sig now nowIso).2).get? i).getD []) 6 = "" ∧
    ∀ (code' sig' nowIso' : String) (now' : Nat),
      (pickupApi (pickupApi sheet pid code sig now nowIso).2 pid code' sig' now' nowIso').1.status
          = 400 ∧
      (pickupApi (pickupApi sheet pid code sig now nowIso).2 pid code' sig' now' nowIso').2 =
        (pickupApi sheet pid code sig now nowIso).2 := by
  obtain ⟨hlen, row, hrow, hr0⟩ := findRow_spec sheet pid i hfind
  rw [pickupApi_success_eq sheet pid code sig nowIso now i row hfind hrow hsucc]
  have hz3 : (setCell row 3 "Picked Up").get? 0 = some pid := by
    rw [get?_zero_setCell row 3 _ (by omega) (by rw [hr0]; exact Option.noConfusion), hr0]
  have hz5 : (setCell (setCell row 3 "Picked Up") 5 nowIso).get? 0 = some pid := by
    rw [get?_zero_setCell _ 5 _ (by omega) (by rw [hz3]; exact Option.noConfusion), hz3]
  have hz6 : (setCell (setCell (setCell row 3 "Picked Up") 5 nowIso) 6 "").get? 0 = some pid := by
    rw [get?_zero_setCell _ 6 _ (by omega) (by rw [hz5]; exact Option.noConfusion), hz5]
  have hz7 : (setCell (setCell (setCell (setCell row 3 "Picked Up") 5 nowIso) 6 "")
      7 sig).get? 0 = some pid := by
    rw [get?_zero_setCell _ 7 _ (by omega) (by rw [hz6]; exact Option.noConfusion), hz6]
  have hfind' : findRow (sheet.set i
      (setCell (setCell (setCell (setCell row 3 "Picked Up") 5 nowIso) 6 "") 7 sig)) pid
      = some i := by
    rw [findRow_set_same_head sheet pid i _ ?_, hfind]
    intro r hr
    rw [hrow] at hr
    cases hr
    rw [hz7, hr0]
  have hget : (sheet.set i
      (setCell (setCell (setCell (setCell row 3 "Picked Up") 5 nowIso) 6 "") 7 sig)).get? i =
      some (setCell (setCell (setCell (setCell row 3 "Picked Up") 5 nowIso) 6 "") 7 sig) :=
    get?_set_self sheet i _ hlen
  have hclear : readCell
      (setCell (setCell (setCell (setCell row 3 "Picked Up") 5 nowIso) 6 "") 7 sig) 6 = "" := by
    rw [readCell_setCell_ne _ _ _ _ (by omega), readCell_setCell_self]
  refine ⟨by rw [hget]; simpa using hclear, ?_⟩
  intro code' sig' nowIso' now'
  have hne : (sheet.set i
      (setCell (setCell (setCell (setCell row 3 "Picked Up") 5 nowIso) 6 "") 7 sig)).isEmpty
      = false := findRow_ne_nil hfind'
  simp only [pickupApi, hne, Bool.false_eq_true, if_false, hfind', hget,
    Option.getD_some, hclear]
  exact ⟨rfl, rfl⟩

theorem pickup_code_one_time_witness :
    (pickupApi
      (pickupApi [["P", "b", "3A1", "Pending", "t0", "", "22" ++ ":" ++ natToString 9, "", "F"]]
        "P" "22" "s" 1 "t1").2
      "P" "22" "s2" 1 "t2").1.status = 400 := by
  have h := pickup_code_one_time
    [["P", "b", "3A1", "Pending", "t0", "", "22" ++ ":" ++ natToString 9, "", "F"]]
    "P" "22" "s" "t1" 1 0 (by decide) (by decide)
  exact (h.2 "22" "s2" "t2" 1).1

/-- C5: issuing a one-time code writes the code and its expiry into the
single cell G of the package row as the colon-delimited string
code:expiryMillis, the expiry being the issuance time plus the fixed
five-minute window; splitting the stored string at the colon recovers the
code and the expiry string, and parsing the latter recovers the expiry
number.  No other cell of the row and no other row is touched. -/
theorem otp_issue_single_cell (sheet : Sheet) (pid : String) (k now i : Nat) (row : Row)
    (hfind : findRow sheet pid = some i)
    (hrow : sheet.get? i = some row) :
    (issueOtpApi sheet pid k now).1 = ⟨200, none⟩ ∧
    readCell (((issueOtpApi sheet pid k now).2.get? i).getD []) 6 =
      otpCandidate6 k ++ ":" ++ natToString (now + otpWindowMs) ∧
    jsSplitColon (readCell (((issueOtpApi sheet pid k now).2.get? i).getD []) 6) =
      [otpCandidate6 k, natToString (now + otpWindowMs)] ∧
    jsParseInt (natToString (now + otpWindowMs)) = some ((now + otpWindowMs : Nat) : Int) ∧
    (∀ j, j ≠ i → (issueOtpApi sheet pid k now).2.get? j = sheet.get? j) ∧
    (∀ c, c ≠ 6 →
      readCell (((issueOtpApi sheet pid k now).2.get? i).getD []) c = readCell row c) := by
  obtain ⟨hlen, -⟩ := findRow_spec sheet pid i hfind
  have hne : sheet.isEmpty = false := findRow_ne_nil hfind
  have heq : issueOtpApi sheet pid k now =
      (⟨200, none⟩, sheet.set i
        (setCell row 6 (otpCandidate6 k ++ ":" ++ natToString (now + otpWindowMs)))) := by
    simp only [issueOtpApi, hne, Bool.false_eq_true, if_false, hfind, hrow, Option.getD_some]
  rw [heq]
  have hget : (sheet.set i
      (setCell row 6 (otpCandidate6 k ++ ":" ++ natToString (now + otpWindowMs)))).get? i =
      some (setCell row 6 (otpCandidate6 k ++ ":" ++ natToString (now + otpWindowMs))) :=
    get?_set_self sheet i _ hlen
  refine ⟨rfl, ?_, ?_, jsParseInt_natToString (now + otpWindowMs),
    fun j hj => get?_set_ne sheet i j _ hj, ?_⟩
  · rw [hget]
    simpa using readCell_setCell_self row 6 _
  · rw [hget]
    simp only [Option.getD_some, readCell_setCell_self]
    exact jsSplitColon_pair (otpCandidate6 k) (natToString (now + otpWindowMs))
      (natToString_no_colon (100000 + k % 900000)) (natToString_no_colon (now + otpWindowMs))
  · intro c hc
    rw [hget]
    simpa using readCell_setCell_ne row 6 _ c hc

theorem otp_issue_single_cell_witness :
    readCell (((issueOtpApi [["PKGA", "b", "4C2", "Pending", "t", "", "", "", "F"]]
      "PKGA" 3 1000).2.get? 0).getD []) 6 =
      otpCandidate6 3 ++ ":" ++ natToString (1000 + otpWindowMs) := by
  have h := otp_issue_single_cell [["PKGA", "b", "4C2", "Pending", "t", "", "", "", "F"]]
    "PKGA" 3 1000 0 ["PKGA", "b", "4C2", "Pending", "t", "", "", "", "F"] (by decide) rfl
  exact h.2.1

/-- C4: with a valid household id, the check-in is rejected with HTTP 400
and no appended row exactly when some existing row carries the same
barcode in column B with status Pending in column D; when every
occurrence of the barcode has some other status the check-in succeeds and
appends a fresh row whose status cell is Pending. -/
theorem addPackage_duplicate_check (sheet : Sheet) (hid barcode : String)
    (rn : Option String) (pidNow : Nat) (nowIso : String)
    (hval : validateHouseholdId hid = true) :
    (((addPackageApi sheet hid barcode rn pidNow nowIso).1.status = 400 ∧
        (addPackageApi sheet hid barcode rn pidNow nowIso).2 = sheet) ↔
      ∃ r ∈ sheet, r.get? 1 = some barcode ∧ r.get? 3 = some "Pending") ∧
    ((¬ ∃ r ∈ sheet, r.get? 1 = some barcode ∧ r.get? 3 = some "Pending") →
      (addPackageApi sheet hid barcode rn pidNow nowIso).1.status = 200 ∧
      (addPackageApi sheet hid barcode rn pidNow nowIso).2 =
        sheet ++ [["PKG" ++ natToString pidNow, barcode, hid, "Pending",
          nowIso, "", "", "", "FALSE", rn.getD ""]]) := by
  have hdup : (sheet.any (fun r =>
      decide (r.get? 1 = some barcode) && decide (r.get? 3 = some "Pending")) = true) ↔
      ∃ r ∈ sheet, r.get? 1 = some barcode ∧ r.get? 3 = some "Pending" := by
    simp [List.any_eq_true]
  by_cases hd : ∃ r ∈ sheet, r.get? 1 = some barcode ∧ r.get? 3 = some "Pending"
  · have hb := hdup.mpr hd
    have heq : addPackageApi sheet hid barcode rn pidNow nowIso =
        (⟨400, some "此條碼已存在且尚未被領取，無法重複登錄。"⟩, sheet) := by
      simp only [addPackageApi, hval, Bool.not_true, Bool.false_eq_true, if_false, hb, if_true]
    rw [heq]
    exact ⟨⟨fun _ => hd, fun _ => ⟨rfl, rfl⟩⟩, fun h => absurd hd h⟩
  · have hb : sheet.any (fun r =>
        decide (r.get? 1 = some barcode) && decide (r.get? 3 = some "Pending")) = false := by
      rcases hx : sheet.any (fun r =>
        decide (r.get? 1 = some barcode) && decide (r.get? 3 = some "Pending")) with _ | _
      · rfl
      · exact absurd (hdup.mp hx) hd
    have heq : addPackageApi sheet hid barcode rn pidNow nowIso =
        (⟨200, none⟩, sheet ++ [["PKG" ++ natToString pidNow, barcode, hid, "Pending",
          nowIso, "", "", "", "FALSE", rn.getD ""]]) := by
      simp only [addPackageApi, hval, Bool.not_true, Bool.false_eq_true, if_false, hb]
    rw [heq]
    constructor
    · constructor
      · rintro ⟨h400, -⟩; simp at h400
      · intro h; exact absurd h hd
    · intro _
      exact ⟨rfl, rfl⟩

theorem addPackage_duplicate_check_witness :
    ((addPackageApi [["P1", "BC", "3A1", "Pending", "t", "", "", "", "F"]]
        "4B2" "BC" none 7 "t2").1.status = 400 ∧
      (addPackageApi [["P1", "BC", "3A1", "Pending", "t", "", "", "", "F"]]
        "4B2" "BC" none 7 "t2").2 = [["P1", "BC", "3A1", "Pending", "t", "", "", "", "F"]]) ∧
    (addPackageApi [["P1", "BC", "3A1", "Picked Up", "t", "", "", "", "F"]]
        "4B2" "BC" none 7 "t2").1.status = 200 := by
  constructor
  · exact (addPackage_duplicate_check [["P1", "BC", "3A1", "Pending", "t", "", "", "", "F"]]
      "4B2" "BC" none 7 "t2" (by decide)).1.mpr
      ⟨["P1", "BC", "3A1", "Pending", "t", "", "", "", "F"], by simp, by decide, by decide⟩
  · exact ((addPackage_duplicate_check [["P1", "BC", "3A1", "Picked Up", "t", "", "", "", "F"]]
      "4B2" "BC" none 7 "t2" (by decide)).2 (by decide)).1

/-- C6: the login succeeds exactly when some row of the admin tab matches
the submitted username in its first column and password in its second; a
missing (or empty, which the handler treats as missing) credential gives
HTTP 400, and a non-matching pair gives HTTP 401 with a message. -/
theorem login_credential_match (adminRows : Sheet) (u p : String)
    (hu : u ≠ "") (hp : p ≠ "") :
    (loginApi adminRows (some u) (some p) = ⟨200, none⟩ ↔
      ∃ r ∈ adminRows, r.get? 0 = some u ∧ r.get? 1 = some p) ∧
    ((¬ ∃ r ∈ adminRows, r.get? 0 = some u ∧ r.get? 1 = some p) →
      loginApi adminRows (some u) (some p) = ⟨401, some "帳號或密碼錯誤"⟩) ∧
    (∀ q : Option String,
      loginApi adminRows none q = ⟨400, some "Missing credentials"⟩ ∧
      loginApi adminRows q none = ⟨400, some "Missing credentials"⟩ ∧
      loginApi adminRows (some "") q = ⟨400, some "Missing credentials"⟩) := by
  have hmiss : ∀ q : Option String,
      loginApi adminRows none q = ⟨400, some "Missing credentials"⟩ ∧
      loginApi adminRows q none = ⟨400, some "Missing credentials"⟩ ∧
      loginApi adminRows (some "") q = ⟨400, some "Missing credentials"⟩ := by
    intro q
    refine ⟨by simp [loginApi], by simp [loginApi], by simp [loginApi]⟩
  have hcond : ¬((some u : Option String).getD "" = "" ∨ (some p : Option String).getD "" = "") := by
    simp [hu, hp]
  have hmatch : (adminRows.any (fun r =>
      decide (r.get? 0 = some u) && decide (r.get? 1 = some p)) = true) ↔
      ∃ r ∈ adminRows, r.get? 0 = some u ∧ r.get? 1 = some p := by
    simp [List.any_eq_true]
  refine ⟨?_, ?_, hmiss⟩
  · constructor
    · intro h
      by_contra hno
      have hb : adminRows.any (fun r =>
          decide (r.get? 0 = some u) && decide (r.get? 1 = some p)) = false := by
        rcases hx : adminRows.any (fun r =>
          decide (r.get? 0 = some u) && decide (r.get? 1 = some p)) with _ | _
        · rfl
        · exact absurd (hmatch.mp hx) hno
      rw [loginApi, if_neg hcond, hb] at h
      simp at h
    · intro hex
      rw [loginApi, if_neg hcond, if_pos (hmatch.mpr hex)]
  · intro hno
    have hb : adminRows.any (fun r =>
        decide (r.get? 0 = some u) && decide (r.get? 1 = some p)) = false := by
      rcases hx : adminRows.any (fun r =>
        decide (r.get? 0 = some u) && decide (r.get? 1 = some p)) with _ | _
      · rfl
      · exact absurd (hmatch.mp hx) hno
    rw [loginApi, if_neg hcond, hb]
    simp

theorem login_credential_match_witness :
    loginApi [["admin", "admin"]] (some "admin") (some "admin") = ⟨200, none⟩ ∧
    loginApi [["admin", "admin"]] (some "admin") (some "wrong") =
      ⟨401, some "帳號或密碼錯誤"⟩ := by
  constructor
  · exact (login_credential_match [["admin", "admin"]] "admin" "admin"
      (by decide) (by decide)).1.mpr ⟨["admin", "admin"], by simp, rfl, rfl⟩
  · exact (login_credential_match [["admin", "admin"]] "admin" "wrong"
      (by decide) (by decide)).2.1 (by decide)

/-! Lemmas about the bounded redraw loop of generateUniqueOTP. -/

theorem genOtpAux_mem (existing : List String) (draws : Nat → Nat) :
    ∀ fuel attempt, ∃ m, attempt ≤ m ∧ m ≤ attempt + fuel ∧
      genOtpAux existing draws attempt fuel = otpCandidate4 (draws m) := by
  intro fuel
  induction fuel with
  | zero => intro attempt; exact ⟨attempt, Nat.le_refl _, by omega, rfl⟩
  | succ fuel ih =>
    intro attempt
    simp only [genOtpAux]
    by_cases h : otpCollides existing (otpCandidate4 (draws attempt)) = true
    · rw [if_pos h]
      obtain ⟨m, h1, h2, h3⟩ := ih (attempt + 1)
      exact ⟨m, by omega, by omega, h3⟩
    · rw [if_neg h]
      exact ⟨attempt, Nat.le_refl _, by omega, rfl⟩

theorem genOtpAux_no_collision (existing : List String) (draws : Nat → Nat) :
    ∀ fuel attempt,
      (∃ m, attempt ≤ m ∧ m ≤ attempt + fuel ∧
        otpCollides existing (otpCandidate4 (draws m)) = false) →
      otpCollides existing (genOtpAux existing draws attempt fuel) = false := by
  intro fuel
  induction fuel with
  | zero =>
    rintro attempt ⟨m, h1, h2, h3⟩
    have hm : m = attempt := by omega
    subst hm
    simpa [genOtpAux] using h3
  | succ fuel ih =>
    rintro attempt ⟨m, h1, h2, h3⟩
    simp only [genOtpAux]
    by_cases h : otpCollides existing (otpCandidate4 (draws attempt)) = true
    · rw [if_pos h]
      apply ih (attempt + 1)
      refine ⟨m, ?_, by omega, h3⟩
      rcases Nat.eq_or_lt_of_le h1 with rfl | hlt
      · rw [h3] at h; exact absurd h (by simp)
      · omega
    · rw [if_neg h]
      simpa using h

theorem genOtpAux_ext (existing : List String) :
    ∀ fuel attempt (draws draws' : Nat → Nat),
      (∀ m, attempt ≤ m → m ≤ attempt + fuel → draws m = draws' m) →
      genOtpAux existing draws attempt fuel = genOtpAux existing draws' attempt fuel := by
  intro fuel
  induction fuel with
  | zero =>
    intro attempt draws draws' h
    simp only [genOtpAux, h attempt (Nat.le_refl _) (by omega)]
  | succ fuel ih =>
    intro attempt draws draws' h
    simp only [genOtpAux, h attempt (Nat.le_refl _) (by omega)]
    by_cases hc : otpCollides existing (otpCandidate4 (draws' attempt)) = true
    · rw [if_pos hc, if_pos hc]
      exact ih (attempt + 1) draws draws' fun m hm1 hm2 => h m (by omega) (by omega)
    · rw [if_neg hc, if_neg hc]

/-- C8: generateUniqueOTP terminates within ten candidate draws (the
result is one of the first ten candidates and depends on no later draw)
and always returns the four-digit decimal string of a number between 1000
and 9999; whenever some of the ten candidates is free of a prefix
collision with the existing entries the returned code is collision-free,
but when all ten draws collide the returned code may itself collide. -/
theorem generateUniqueOTP_bounds :
    (∀ (existing : List String) (draws : Nat → Nat),
      ∃ m, m < 10 ∧ generateUniqueOTP existing draws = otpCandidate4 (draws m)) ∧
    (∀ (existing : List String) (draws : Nat → Nat),
      ∃ v, 1000 ≤ v ∧ v ≤ 9999 ∧ generateUniqueOTP existing draws = natToString v ∧
        (generateUniqueOTP existing draws).length = 4 ∧
        ∀ c ∈ (generateUniqueOTP existing draws).data, 48 ≤ c.toNat ∧ c.toNat ≤ 57) ∧
    (∀ (existing : List String) (draws : Nat → Nat),
      (∃ m, m < 10 ∧ otpCollides existing (otpCandidate4 (draws m)) = false) →
      otpCollides existing (generateUniqueOTP existing draws) = false) ∧
    (∀ (existing : List String) (draws draws' : Nat → Nat),
      (∀ m, m < 10 → draws m = draws' m) →
      generateUniqueOTP existing draws = generateUniqueOTP existing draws') ∧
    (∃ (existing : List String) (draws : Nat → Nat),
      (∀ m, otpCollides existing (otpCandidate4 (draws m)) = true) ∧
      otpCollides existing (generateUniqueOTP existing draws) = true) := by
  have hm : ∀ (existing : List String) (draws : Nat → Nat),
      ∃ m, m < 10 ∧ generateUniqueOTP existing draws = otpCandidate4 (draws m) := by
    intro existing draws
    obtain ⟨m, h1, h2, h3⟩ := genOtpAux_mem existing draws 9 0
    exact ⟨m, by omega, h3⟩
  refine ⟨hm, ?_, ?_, ?_, ?_⟩
  · intro existing draws
    obtain ⟨m, -, h3⟩ := hm existing draws
    refine ⟨1000 + draws m % 9000, by omega, by omega, h3, ?_, ?_⟩
    · rw [h3, otpCandidate4]
      exact natToString_length_four (by omega) (by omega)
    · rw [h3, otpCandidate4]
      exact natToString_digits (1000 + draws m % 9000)
  · rintro existing draws ⟨m, hm10, hfree⟩
    exact genOtpAux_no_collision existing draws 9 0 ⟨m, by omega, by omega, hfree⟩
  · intro existing draws draws' h
    exact genOtpAux_ext existing 9 0 draws draws' fun m hm1 hm2 => h m (by omega)
  · refine ⟨["1000" ++ ":" ++ "x"], fun _ => 0, fun m => ?_, by decide⟩
    exact (by decide : otpCollides ["1000" ++ ":" ++ "x"] (otpCandidate4 0) = true)

theorem generateUniqueOTP_bounds_witness :
    otpCollides ["7777" ++ ":" ++ "e"] (generateUniqueOTP ["7777" ++ ":" ++ "e"]
      (fun _ => 0)) = false :=
  generateUniqueOTP_bounds.2.2.1 ["7777" ++ ":" ++ "e"] (fun _ => 0) ⟨0, by omega, by decide⟩

/-- C9: the package listing returns one record per data row with the
header row dropped, in reverse sheet order, and the pickupOTP field of a
record holds exactly the part of the stored cell before the first colon,
which in particular never contains a colon and recovers the code of a
stored code-and-expiry pair. -/
theorem getPackages_shape :
    (∀ sheet : Sheet, (getPackagesApi sheet).length = sheet.length - 1) ∧
    (∀ (sheet : Sheet) (i : Nat), i + 1 < sheet.length →
      (getPackagesApi sheet).get? i = (sheet.get? (sheet.length - 1 - i)).map toPackageRec) ∧
    (∀ (r : Row) (code : String) (e : Nat),
      readCell r 6 = code ++ ":" ++ natToString e → hasColon code.data = false →
      (toPackageRec r).pickupOTP = code) ∧
    (∀ r : Row, hasColon ((toPackageRec r).pickupOTP).data = false) := by
  refine ⟨?_, ?_, ?_, ?_⟩
  · intro sheet
    cases sheet with
    | nil => rfl
    | cons r rs => simp [getPackagesApi]
  · intro sheet i hi
    cases sheet with
    | nil => simp at hi
    | cons r rs =>
      have hi' : i < rs.length := by
        simp only [List.length_cons] at hi
        omega
      have hne : (r :: rs : Sheet).isEmpty = false := rfl
      have hidx : ((r :: rs : Sheet).get? ((r :: rs).length - 1 - i)) =
          rs.get? (rs.length - 1 - i) := by
        have hstep : (r :: rs : Sheet).length - 1 - i = (rs.length - 1 - i) + 1 := by
          simp only [List.length_cons]
          omega
        rw [hstep]
        rfl
      simp only [getPackagesApi, hne, Bool.false_eq_true, if_false, List.drop_one,
        List.tail_cons]
      rw [hidx, List.get?_eq_getElem?, List.get?_eq_getElem?,
        List.getElem?_reverse (by simpa using hi'), List.getElem?_map]
      have hx : (List.map toPackageRec rs).length - 1 - i = rs.length - 1 - i := by
        simp
      rw [hx]
  · intro r code e hcell hcode
    have hne' : ¬(code ++ ":" ++ natToString e = "") := by
      intro hx
      have hd := congrArg String.data hx
      rw [data_pair] at hd
      simp at hd
    simp only [toPackageRec, hcell, if_neg hne',
      jsSplitColon_pair code (natToString e) hcode (natToString_no_colon e),
      List.get?, Option.getD_some]
  · intro r
    simp only [toPackageRec]
    by_cases hne : readCell r 6 = ""
    · rw [if_pos hne]
      rfl
    · rw [if_neg hne]
      rcases hs : splitColonAux (readCell r 6).data with _ | ⟨p, ps⟩
      · exact absurd hs (splitColonAux_ne_nil _)
      · have hp : hasColon p = false :=
          splitColonAux_parts_no_colon (readCell r 6).data p
            (by rw [hs]; exact List.mem_cons_self p ps)
        simp only [jsSplitColon, hs, List.map_cons, List.get?]
        exact hp

theorem getPackages_shape_witness :
    (getPackagesApi [["hdr"], ["P1"], ["P2"]]).get? 0 =
      ((([["hdr"], ["P1"], ["P2"]] : Sheet).get? 2).map toPackageRec) :=
  getPackages_shape.2.1 [["hdr"], ["P1"], ["P2"]] 0 (by decide)

/-- C10: the household lookup of chat accounts answers the empty list on
any fetch failure, and otherwise a duplicate-free list holding exactly the
column-A ids of the rows whose household column matches and, when a
nonempty recipient name is given, whose name column matches as well. -/
theorem getLineUsers_spec (users : Sheet) (hid : String) (name : String)
    (hname : name ≠ "") :
    (∀ o : Option String, getLineUsersByHousehold false users hid o = []) ∧
    (getLineUsersByHousehold true users hid none).Nodup ∧
    (∀ x, x ∈ getLineUsersByHousehold true users hid none ↔
      ∃ r ∈ users, r.get? 1 = some hid ∧ readCell r 0 = x) ∧
    (getLineUsersByHousehold true users hid (some name)).Nodup ∧
    (∀ x, x ∈ getLineUsersByHousehold true users hid (some name) ↔
      ∃ r ∈ users, r.get? 1 = some hid ∧ r.get? 2 = some name ∧ readCell r 0 = x) := by
  refine ⟨fun o => rfl, ?_, ?_, ?_, ?_⟩
  · cases users with
    | nil => simp [getLineUsersByHousehold]
    | cons u us => exact dedupFirst_nodup _
  · intro x
    cases users with
    | nil => simp [getLineUsersByHousehold]
    | cons u us =>
      have hne : ((u :: us : Sheet).isEmpty = false) := rfl
      have htr : truthyStr (none : Option String) = false := by decide
      simp only [getLineUsersByHousehold, Bool.not_true, Bool.false_eq_true, if_false,
        hne, dedupFirst_mem, List.mem_map, List.mem_filter, htr,
        Bool.and_true, decide_eq_true_eq]
      constructor
      · rintro ⟨r, ⟨hr, h1⟩, h0⟩
        exact ⟨r, hr, h1, h0⟩
      · rintro ⟨r, hr, h1, h0⟩
        exact ⟨r, ⟨hr, h1⟩, h0⟩
  · cases users with
    | nil => simp [getLineUsersByHousehold]
    | cons u us => exact dedupFirst_nodup _
  · intro x
    cases users with
    | nil => simp [getLineUsersByHousehold]
    | cons u us =>
      have hne : ((u :: us : Sheet).isEmpty = false) := rfl
      have htr : truthyStr (some name) = true := by simp [truthyStr, hname]
      simp only [getLineUsersByHousehold, Bool.not_true, Bool.false_eq_true, if_false,
        hne, dedupFirst_mem, List.mem_map, List.mem_filter, htr, if_true,
        Bool.and_eq_true, decide_eq_true_eq]
      constructor
      · rintro ⟨r, ⟨hr, h1, h2⟩, h0⟩
        exact ⟨r, hr, h1, h2, h0⟩
      · rintro ⟨r, hr, h1, h2, h0⟩
        exact ⟨r, ⟨hr, h1, h2⟩, h0⟩

theorem getLineUsers_spec_witness :
    "U1" ∈ getLineUsersByHousehold true
      [["U1", "5A1", "amy"], ["U2", "5A1", "bob"]] "5A1" (some "amy") := by
  have h := getLineUsers_spec [["U1", "5A1", "amy"], ["U2", "5A1", "bob"]] "5A1" "amy"
    (by decide)
  exact (h.2.2.2.2 "U1").mpr ⟨["U1", "5A1", "amy"], by simp, rfl, rfl, rfl⟩

end LineParcel
